import Mathlib

/-!
Shallow embedding of the `brightfish` repository (src/brightfish/utils.py,
src/brightfish/fish.py, src/brightfish/environment.py) and proofs about its
claimed behavior.

Modelling conventions:
* Python floats are modelled as real numbers (`ℝ`); Python's `x % y` for a
  positive float modulus is modelled by `fmod` below.
* Randomness (`np.random.normal`, `np.random.binomial(1, p)`) is modelled by an
  oracle record `RNG`: `normal mu sigma` is the value drawn from a call
  `np.random.normal(mu, sigma)` and `bernoulli p` is whether a call
  `np.random.binomial(1, p)` returned 1.  Every sampling call site in the
  source corresponds to one oracle application with the same distribution
  parameters.
* The external rasterizer `skimage.draw.polygon(r, c, shape)` is modelled by an
  abstract parameter `P : Raster` taking the three polygon vertex rows, the
  three vertex columns and the shape, and returning the row/column coordinate
  lists of the filled polygon, exactly as the source consumes it.
* A 2D numpy array is modelled as a total function `ℕ → ℕ → ℝ`.
-/

namespace Brightfish

/-- Python's floating-point `x % y` (sign of the divisor):
for `y > 0`, `x % y = x - y * ⌊x / y⌋`. -/
noncomputable def fmod (x y : ℝ) : ℝ := x - y * ⌊x / y⌋

/-- `utils.pol2cart(rho, phi, origin)`: the source computes
`r = rho*cos(phi)`, `c = rho*sin(phi)`, then adds `origin[0]` to `r`
and `origin[1]` to `c`. -/
noncomputable def pol2cart (rho phi : ℝ) (origin : ℝ × ℝ) : ℝ × ℝ :=
  (rho * Real.cos phi + origin.1, rho * Real.sin phi + origin.2)

/-- `numpy.clip(a, lo, hi)` for scalars. -/
noncomputable def clip (a lo hi : ℝ) : ℝ := min (max a lo) hi

/-- Modelled from the spec: `utils.nonlinearity` is imported by `fish.py`
(`from .utils import pol2cart, nonlinearity`) but is absent from
`utils.py` in the source tree.  The spec defines it as
`clip(|x|^(1/3), 0, 1)`. -/
noncomputable def nonlinearity (x : ℝ) : ℝ := clip (|x| ^ ((1 : ℝ) / 3)) 0 1

/-- A `(mu, sigma)` turning/movement distribution parameter pair
(the Python dicts `{"mu": …, "sigma": …}`). -/
structure Dist where
  mu : ℝ
  sigma : ℝ

/-- Oracle for the process-wide numpy random source: `normal mu sigma` is the
value produced by a call `np.random.normal(mu, sigma)` and `bernoulli p`
is whether a call `np.random.binomial(1, p)` produced 1. -/
structure RNG where
  normal : ℝ → ℝ → ℝ
  bernoulli : ℝ → Bool

/-- The part of an `Environment` a `Fish` reads: its `shape` and its
`stage` array (modelled as a total function). -/
structure EnvView where
  shape : ℕ × ℕ
  stage : ℕ → ℕ → ℝ

/-- Abstract model of the external rasterizer `skimage.draw.polygon(r, c,
shape)`: given the polygon vertex rows, vertex columns and the clipping
shape, it returns the pair `(rr, cc)` of row and column coordinate lists of
the filled polygon. -/
def Raster : Type := List ℝ → List ℝ → ℕ × ℕ → List ℕ × List ℕ

/-- The state of a `Fish` (fish.py).  `S` is the type of the set point:
`ℝ` for `BinocularFish`, `ℝ × ℝ` for `MonocularFish`.  `position` is a real
pair because a committed `move()` stores the raw `pol2cart` output. -/
structure Fish (S : Type) where
  heading : ℝ
  position : ℝ × ℝ
  static : Bool
  set_point : S
  max_diff : ℝ
  learning_rate : ℝ
  p_move : ℝ
  move_dist : Dist
  no_turn_dist : Dist
  left_turn_dist : Dist
  right_turn_dist : Dist

variable {S : Type}

/-- `Fish.left_eye(shape)`: casts two rays of length `max(shape) * 1000` at
`(heading + 0.1π) % 2π` and `(heading + 0.9π) % 2π` from `position` and
rasterizes the triangle `[position, ray1, ray2]` clipped to `shape`. -/
noncomputable def Fish.left_eye (P : Raster) (f : Fish S) (shape : ℕ × ℕ) :
    List ℕ × List ℕ :=
  let radius : ℝ := ((max shape.1 shape.2) * 1000 : ℕ)
  let p1 := pol2cart radius (fmod (f.heading + 0.1 * Real.pi) (2 * Real.pi)) f.position
  let p2 := pol2cart radius (fmod (f.heading + 0.9 * Real.pi) (2 * Real.pi)) f.position
  P [f.position.1, p1.1, p2.1] [f.position.2, p1.2, p2.2] shape

/-- `Fish.right_eye(shape)`: same as `left_eye` with ray angles
`(heading - 0.1π) % 2π` and `(heading - 0.9π) % 2π`. -/
noncomputable def Fish.right_eye (P : Raster) (f : Fish S) (shape : ℕ × ℕ) :
    List ℕ × List ℕ :=
  let radius : ℝ := ((max shape.1 shape.2) * 1000 : ℕ)
  let p1 := pol2cart radius (fmod (f.heading - 0.1 * Real.pi) (2 * Real.pi)) f.position
  let p2 := pol2cart radius (fmod (f.heading - 0.9 * Real.pi) (2 * Real.pi)) f.position
  P [f.position.1, p1.1, p2.1] [f.position.2, p1.2, p2.2] shape

/-- `environment.stage[rr, cc].mean()`: the mean of the stage values at the
paired coordinates `(rr[i], cc[i])`. -/
noncomputable def stageMean (stage : ℕ → ℕ → ℝ) (rr cc : List ℕ) : ℝ :=
  (((rr.zip cc).map fun p => stage p.1 p.2).sum) / ((rr.zip cc).length)

/-- `Fish.brightness_left(environment)`: mean stage brightness over the left
eye's field of view, or `0.0` if the rasterized field of view is empty. -/
noncomputable def Fish.brightness_left (P : Raster) (f : Fish S) (env : EnvView) : ℝ :=
  let fov := f.left_eye P env.shape
  if fov.1 ≠ [] ∧ fov.2 ≠ [] then stageMean env.stage fov.1 fov.2 else 0

/-- `Fish.brightness_right(environment)`: mean stage brightness over the right
eye's field of view, or `0.0` if the rasterized field of view is empty. -/
noncomputable def Fish.brightness_right (P : Raster) (f : Fish S) (env : EnvView) : ℝ :=
  let fov := f.right_eye P env.shape
  if fov.1 ≠ [] ∧ fov.2 ≠ [] then stageMean env.stage fov.1 fov.2 else 0

/-- `BinocularFish.turn(environment)`: returns the sampled heading delta
`theta` together with the updated fish.  Mirrors fish.py lines 426-457; the
Python variable `diff_diff` is reassigned to
`max_diff * nonlinearity(diff_diff)` before the Bernoulli draw, named `p`
here. -/
noncomputable def BinocularFish.turn (P : Raster) (f : Fish ℝ) (env : EnvView)
    (rng : RNG) : ℝ × Fish ℝ :=
  let brightness_left := f.brightness_left P env
  let brightness_right := f.brightness_right P env
  let diff_left := |brightness_left - f.set_point|
  let diff_right := |brightness_right - f.set_point|
  let diff_diff := diff_left - diff_right
  let turn_dist := if 0 < diff_diff then f.right_turn_dist else f.left_turn_dist
  let p := f.max_diff * nonlinearity diff_diff
  let no_turn_rad := rng.normal f.no_turn_dist.mu f.no_turn_dist.sigma
  let turn_rad := rng.normal turn_dist.mu turn_dist.sigma
  let theta := if rng.bernoulli p then turn_rad else no_turn_rad
  if f.static then (theta, f)
  else (theta, { f with heading := fmod (f.heading + theta) (2 * Real.pi) })

/-- `MonocularFish.turn(environment)`: identical to the binocular turn except
that the left and right eyes are compared against separate set points
(fish.py lines 659-691). -/
noncomputable def MonocularFish.turn (P : Raster) (f : Fish (ℝ × ℝ)) (env : EnvView)
    (rng : RNG) : ℝ × Fish (ℝ × ℝ) :=
  let brightness_left := f.brightness_left P env
  let brightness_right := f.brightness_right P env
  let diff_left := |brightness_left - f.set_point.1|
  let diff_right := |brightness_right - f.set_point.2|
  let diff_diff := diff_left - diff_right
  let turn_dist := if 0 < diff_diff then f.right_turn_dist else f.left_turn_dist
  let p := f.max_diff * nonlinearity diff_diff
  let no_turn_rad := rng.normal f.no_turn_dist.mu f.no_turn_dist.sigma
  let turn_rad := rng.normal turn_dist.mu turn_dist.sigma
  let theta := if rng.bernoulli p then turn_rad else no_turn_rad
  if f.static then (theta, f)
  else (theta, { f with heading := fmod (f.heading + theta) (2 * Real.pi) })

/-- Base-class `Fish.move(environment)` (fish.py lines 166-194), parameterized
by the subclass's `turn`.  Returns `(move_distance, theta, fish')`.  The
candidate position is committed only when the fish is not static and the
candidate row/column lie within `[0, shape[i])`. -/
noncomputable def Fish.move (turnF : Fish S → EnvView → RNG → ℝ × Fish S)
    (f : Fish S) (env : EnvView) (rng : RNG) : ℝ × ℝ × Fish S :=
  let t := turnF f env rng
  let theta := t.1
  let f1 := t.2
  if rng.bernoulli f1.p_move then
    let move_distance := rng.normal f1.move_dist.mu f1.move_dist.sigma
    let cand := pol2cart move_distance f1.heading f1.position
    if f1.static = false ∧ 0 ≤ cand.1 ∧ cand.1 < (env.shape.1 : ℝ)
        ∧ 0 ≤ cand.2 ∧ cand.2 < (env.shape.2 : ℝ) then
      (move_distance, theta, { f1 with position := cand })
    else
      (move_distance, theta, f1)
  else
    (0, theta, f1)

/-- `BinocularFish.move`. -/
noncomputable def BinocularFish.move (P : Raster) : Fish ℝ → EnvView → RNG → ℝ × ℝ × Fish ℝ :=
  Fish.move (BinocularFish.turn P)

/-- `MonocularFish.move`. -/
noncomputable def MonocularFish.move (P : Raster) :
    Fish (ℝ × ℝ) → EnvView → RNG → ℝ × ℝ × Fish (ℝ × ℝ) :=
  Fish.move (MonocularFish.turn P)

/-- The per-step state record returned by `step()`. -/
structure StepRecord (S : Type) where
  heading : ℝ
  r : ℝ
  c : ℝ
  set_point : S
  diff_left : ℝ
  diff_right : ℝ
  move_distance : ℝ
  theta : ℝ

/-- `BinocularFish.step(environment)` (fish.py lines 459-500): sense both
eyes, update the scalar set point toward the mean sensed brightness, move
(which first turns), advance the environment (`stepE` models
`environment.step()`), and return the updated fish, environment and
parameter record. -/
noncomputable def BinocularFish.step (P : Raster) (f : Fish ℝ) (env : EnvView)
    (stepE : EnvView → EnvView) (rng : RNG) :
    Fish ℝ × EnvView × StepRecord ℝ :=
  let brightness_left := f.brightness_left P env
  let brightness_right := f.brightness_right P env
  let diff_left := |brightness_left - f.set_point|
  let diff_right := |brightness_right - f.set_point|
  let update := f.set_point - (brightness_left + brightness_right) / 2
  let f1 : Fish ℝ := { f with set_point := f.set_point - f.learning_rate * update }
  let m := Fish.move (BinocularFish.turn P) f1 env rng
  let env2 := stepE env
  (m.2.2, env2,
    { heading := m.2.2.heading, r := m.2.2.position.1, c := m.2.2.position.2,
      set_point := m.2.2.set_point, diff_left := diff_left,
      diff_right := diff_right, move_distance := m.1, theta := m.2.1 })

/-- `MonocularFish.step(environment)` (fish.py lines 693-740): like the
binocular step but each eye updates its own set point from its own
brightness only. -/
noncomputable def MonocularFish.step (P : Raster) (f : Fish (ℝ × ℝ)) (env : EnvView)
    (stepE : EnvView → EnvView) (rng : RNG) :
    Fish (ℝ × ℝ) × EnvView × StepRecord (ℝ × ℝ) :=
  let brightness_left := f.brightness_left P env
  let brightness_right := f.brightness_right P env
  let diff_left := |brightness_left - f.set_point.1|
  let diff_right := |brightness_right - f.set_point.2|
  let update_left := f.set_point.1 - brightness_left
  let update_right := f.set_point.2 - brightness_right
  let f1 : Fish (ℝ × ℝ) :=
    { f with set_point := (f.set_point.1 - f.learning_rate * update_left,
                           f.set_point.2 - f.learning_rate * update_right) }
  let m := Fish.move (MonocularFish.turn P) f1 env rng
  let env2 := stepE env
  (m.2.2, env2,
    { heading := m.2.2.heading, r := m.2.2.position.1, c := m.2.2.position.2,
      set_point := m.2.2.set_point, diff_left := diff_left,
      diff_right := diff_right, move_distance := m.1, theta := m.2.1 })

/-- `environment.Spotlight`: uniform brightness until `burnin_time`, then the
stage is replaced by the smoothed spot pattern.  `spotStage` is the fixed
stage produced by `place_spot()` (whose interior uses the external
`skimage.draw.circle` and `skimage.filters.gaussian`, abstracted here since
it depends only on construction parameters). -/
structure Spotlight where
  shape : ℕ × ℕ
  burnin_time : ℕ
  spot_coordinate : ℕ × ℕ
  initial_value : ℝ
  spot_value : ℝ
  spot_radius : ℕ
  spotStage : ℕ → ℕ → ℝ
  time_step : ℕ
  stage : ℕ → ℕ → ℝ

/-- `Spotlight.step()`: increment `time_step`; when it reaches
`burnin_time`, paint the spot. -/
def Spotlight.step (e : Spotlight) : Spotlight :=
  let t := e.time_step + 1
  { e with time_step := t,
           stage := if t = e.burnin_time then e.spotStage else e.stage }

/-- `environment.PartitionedHalves`.  `initialHalfLeft` models
`initial_half == 'left'`. -/
structure PartitionedHalves where
  shape : ℕ × ℕ
  burnin_time : ℕ
  switch_time : ℕ
  initial_value : ℝ
  initialHalfLeft : Bool
  static : Bool
  time_step : ℕ
  stage : ℕ → ℕ → ℝ

/-- `Environment.midpoint`: `tuple(s // 2 for s in shape)`. -/
def PartitionedHalves.midpoint (e : PartitionedHalves) : ℕ × ℕ :=
  (e.shape.1 / 2, e.shape.2 / 2)

/-- `PartitionedHalves.partition()`: zero the stage, then set columns
`[:midpoint+1]` (left) or `[midpoint:]` (right) to 1.0. -/
def PartitionedHalves.partitionedStage (e : PartitionedHalves) : ℕ → ℕ → ℝ :=
  fun _ c =>
    if e.initialHalfLeft then (if c < e.midpoint.2 + 1 then 1 else 0)
    else (if e.midpoint.2 ≤ c then 1 else 0)

/-- `PartitionedHalves.switch_halves()`: `np.flip(stage, axis=1)`. -/
def PartitionedHalves.flippedStage (e : PartitionedHalves) : ℕ → ℕ → ℝ :=
  fun r c => e.stage r (e.shape.2 - 1 - c)

/-- `PartitionedHalves.step()`: increment `time_step`; at `burnin_time`
partition the halves, and every `switch_time` steps flip them — both only
when not static.  (Python raises on `switch_time = 0`; here `t % 0 = t ≠ 0`
so no flip happens for that invalid configuration.) -/
def PartitionedHalves.step (e : PartitionedHalves) : PartitionedHalves :=
  let t := e.time_step + 1
  let e1 := { e with time_step := t }
  let e2 := if t = e1.burnin_time ∧ e1.static = false
    then { e1 with stage := e1.partitionedStage } else e1
  if t % e2.switch_time = 0 ∧ e2.static = false
    then { e2 with stage := e2.flippedStage } else e2

/-- `np.linspace(a, b, num)` at index `i` (`num ≥ 2`; numpy returns `[a]`
for `num = 1`). -/
noncomputable def linspace (a b : ℝ) (num : ℕ) (i : ℕ) : ℝ :=
  if num ≤ 1 then a else a + i * (b - a) / ((num - 1 : ℕ) : ℝ)

/-- `environment.SinusoidalGradient`: a per-row sine gradient.  It has no
`time_step` field — neither its `__init__` nor the base `Environment`
defines one. -/
structure SinusoidalGradient where
  shape : ℕ × ℕ
  start : ℝ
  stop : ℝ
  phase : ℝ
  dt : ℝ
  static : Bool
  stage : ℕ → ℕ → ℝ

/-- `SinusoidalGradient.step()`: when not static, advance the phase by `dt`
(mod 2π) and recompute the stage; when static, do nothing at all. -/
noncomputable def SinusoidalGradient.step (e : SinusoidalGradient) : SinusoidalGradient :=
  if e.static then e
  else
    let phase2 := fmod (e.phase + e.dt) (2 * Real.pi)
    { e with phase := phase2,
             stage := fun _ c =>
               0.5 * (1 + Real.sin (linspace e.start e.stop e.shape.2 c + phase2)) }

/-- The candidate position `pol2cart(move_distance, heading, origin=position)`
computed inside `Fish.move` from the post-turn fish. -/
noncomputable def moveCandidate (turnF : Fish S → EnvView → RNG → ℝ × Fish S)
    (f : Fish S) (env : EnvView) (rng : RNG) : ℝ × ℝ :=
  let f1 := (turnF f env rng).2
  pol2cart (rng.normal f1.move_dist.mu f1.move_dist.sigma) f1.heading f1.position

/-- The in-bounds test `0 ≤ row < shape[0] ∧ 0 ≤ col < shape[1]` used to
commit a move. -/
def inBoundsR (shape : ℕ × ℕ) (p : ℝ × ℝ) : Prop :=
  0 ≤ p.1 ∧ p.1 < (shape.1 : ℝ) ∧ 0 ≤ p.2 ∧ p.2 < (shape.2 : ℝ)

/-- Rasterizer instance returning an empty field of view everywhere. -/
def P0 : Raster := fun _ _ _ => ([], [])

/-- Rasterizer instance returning the single cell `(0, 0)` everywhere. -/
def P1 : Raster := fun _ _ _ => ([0], [0])

/-- A 10×10 environment of uniform brightness 0.25. -/
def env10 : EnvView := ⟨(10, 10), fun _ _ => 0.25⟩

/-- Random oracle whose normal draws return the mean and whose Bernoulli
draws all succeed. -/
def rngMeans : RNG := ⟨fun mu _ => mu, fun _ => true⟩

/-- Random oracle whose normal draws return the mean and whose Bernoulli
draws all fail. -/
def rngNoMove : RNG := ⟨fun mu _ => mu, fun _ => false⟩

/-- Random oracle whose normal draws return 0 and whose Bernoulli draws all
succeed. -/
def rngZero : RNG := ⟨fun _ _ => 0, fun _ => true⟩

/-- A binocular fish with the Python default hyperparameters except that all
turn-distribution means are 0 (so mean-valued draws leave the heading
unchanged) and the move-distance mean is `moveMu`. -/
def mkFish (heading : ℝ) (pos : ℝ × ℝ) (st : Bool) (moveMu : ℝ) : Fish ℝ :=
  { heading := heading, position := pos, static := st, set_point := 0.5,
    max_diff := 0.75, learning_rate := 0.05, p_move := 0.2,
    move_dist := ⟨moveMu, 1⟩, no_turn_dist := ⟨0, 1⟩,
    left_turn_dist := ⟨0, 1⟩, right_turn_dist := ⟨0, 1⟩ }

/-- A non-static fish at `(5,5)`, heading 0, whose move-distance draw (at the
mean) is 100 — far out of a 10×10 arena. -/
def fishC6 : Fish ℝ := mkFish 0 (5, 5) false 100

/-- A non-static fish at `(5,5)`, heading 0, whose move-distance draw (at the
mean) is 0.5 — an in-bounds but non-integer candidate. -/
def fishC9 : Fish ℝ := mkFish 0 (5, 5) false 0.5

/-- A static fish with heading 7, which lies outside `[0, 2π)`. -/
def fish7 : Fish ℝ := mkFish 7 (5, 5) true 1

/-- A fish at the corner `(0,0)` of the arena. -/
def fishC5 : Fish ℝ := mkFish 0 (0, 0) false 1

/-- The concrete-scenario fish of the spec: position `(5,5)`, heading 0,
`set_point = 0.5`, `static = True`, `p_move = 0`, with the Python default
distributions. -/
def fish4 : Fish ℝ :=
  { heading := 0, position := (5, 5), static := true, set_point := 0.5,
    max_diff := 0.75, learning_rate := 0.05, p_move := 0,
    move_dist := ⟨1, 1⟩, no_turn_dist := ⟨0.01, 0.5⟩,
    left_turn_dist := ⟨0.52, 0.59⟩, right_turn_dist := ⟨-0.52, 0.59⟩ }

/-- A non-static monocular fish at `(5,5)`, heading 0. -/
def fishM : Fish (ℝ × ℝ) :=
  { heading := 0, position := (5, 5), static := false, set_point := (0.5, 0.5),
    max_diff := 0.75, learning_rate := 0.05, p_move := 0.2,
    move_dist := ⟨1, 1⟩, no_turn_dist := ⟨0, 1⟩,
    left_turn_dist := ⟨0, 1⟩, right_turn_dist := ⟨0, 1⟩ }

/-- A concrete `Spotlight` with `burnin_time = 5` at time 0. -/
def sp0 : Spotlight :=
  ⟨(10, 10), 5, (5, 5), 0.25, 0.25, 1, fun _ _ => 0, 0, fun _ _ => 0.25⟩

/-- A concrete non-static `PartitionedHalves` with `burnin_time = 5`,
`switch_time = 3`, at time 0. -/
def ph0 : PartitionedHalves :=
  ⟨(10, 10), 5, 3, 0.25, true, false, 0, fun _ _ => 0.25⟩

/-- A concrete static `SinusoidalGradient` with the constructor's stage. -/
noncomputable def sg0 : SinusoidalGradient :=
  ⟨(10, 10), 0, 2 * Real.pi, 3 * Real.pi / 2, 0.01, true,
   fun _ c => 0.5 * (1 + Real.sin (linspace 0 (2 * Real.pi) 10 c + 3 * Real.pi / 2))⟩

theorem binocular_turn_fields (P : Raster) (f : Fish ℝ) (env : EnvView) (rng : RNG) :
    ((BinocularFish.turn P f env rng).2).position = f.position
    ∧ ((BinocularFish.turn P f env rng).2).static = f.static
    ∧ ((BinocularFish.turn P f env rng).2).p_move = f.p_move
    ∧ ((BinocularFish.turn P f env rng).2).move_dist = f.move_dist
    ∧ ((BinocularFish.turn P f env rng).2).set_point = f.set_point
    ∧ ((BinocularFish.turn P f env rng).2).learning_rate = f.learning_rate := by
  unfold BinocularFish.turn
  split <;> exact ⟨rfl, rfl, rfl, rfl, rfl, rfl⟩

theorem monocular_turn_fields (P : Raster) (f : Fish (ℝ × ℝ)) (env : EnvView) (rng : RNG) :
    ((MonocularFish.turn P f env rng).2).position = f.position
    ∧ ((MonocularFish.turn P f env rng).2).static = f.static
    ∧ ((MonocularFish.turn P f env rng).2).p_move = f.p_move
    ∧ ((MonocularFish.turn P f env rng).2).move_dist = f.move_dist
    ∧ ((MonocularFish.turn P f env rng).2).set_point = f.set_point
    ∧ ((MonocularFish.turn P f env rng).2).learning_rate = f.learning_rate := by
  unfold MonocularFish.turn
  split <;> exact ⟨rfl, rfl, rfl, rfl, rfl, rfl⟩

theorem binocular_turn_heading_static (P : Raster) (f : Fish ℝ) (env : EnvView)
    (rng : RNG) (hs : f.static = true) :
    (BinocularFish.turn P f env rng).2 = f := by
  unfold BinocularFish.turn
  rw [if_pos hs]

theorem monocular_turn_heading_static (P : Raster) (f : Fish (ℝ × ℝ)) (env : EnvView)
    (rng : RNG) (hs : f.static = true) :
    (MonocularFish.turn P f env rng).2 = f := by
  unfold MonocularFish.turn
  rw [if_pos hs]

theorem binocular_turn_heading_nonstatic (P : Raster) (f : Fish ℝ) (env : EnvView)
    (rng : RNG) (hs : f.static = false) :
    ((BinocularFish.turn P f env rng).2).heading =
      fmod (f.heading + (BinocularFish.turn P f env rng).1) (2 * Real.pi) := by
  unfold BinocularFish.turn
  rw [if_neg (by simp [hs])]

theorem monocular_turn_heading_nonstatic (P : Raster) (f : Fish (ℝ × ℝ)) (env : EnvView)
    (rng : RNG) (hs : f.static = false) :
    ((MonocularFish.turn P f env rng).2).heading =
      fmod (f.heading + (MonocularFish.turn P f env rng).1) (2 * Real.pi) := by
  unfold MonocularFish.turn
  rw [if_neg (by simp [hs])]

theorem fish_move_heading (turnF : Fish S → EnvView → RNG → ℝ × Fish S)
    (f : Fish S) (env : EnvView) (rng : RNG) :
    ((Fish.move turnF f env rng).2.2).heading = ((turnF f env rng).2).heading := by
  unfold Fish.move
  dsimp only
  split
  · split <;> rfl
  · rfl

theorem fish_move_set_point (turnF : Fish S → EnvView → RNG → ℝ × Fish S)
    (f : Fish S) (env : EnvView) (rng : RNG) :
    ((Fish.move turnF f env rng).2.2).set_point = ((turnF f env rng).2).set_point := by
  unfold Fish.move
  dsimp only
  split
  · split <;> rfl
  · rfl

theorem fish_move_theta (turnF : Fish S → EnvView → RNG → ℝ × Fish S)
    (f : Fish S) (env : EnvView) (rng : RNG) :
    (Fish.move turnF f env rng).2.1 = (turnF f env rng).1 := by
  unfold Fish.move
  dsimp only
  split
  · split <;> rfl
  · rfl

theorem fish_move_fst (turnF : Fish S → EnvView → RNG → ℝ × Fish S)
    (f : Fish S) (env : EnvView) (rng : RNG) :
    (Fish.move turnF f env rng).1 =
      if rng.bernoulli ((turnF f env rng).2).p_move
      then rng.normal ((turnF f env rng).2).move_dist.mu ((turnF f env rng).2).move_dist.sigma
      else 0 := by
  unfold Fish.move
  dsimp only
  split
  · split <;> rfl
  · rfl

theorem fish_move_position_static (turnF : Fish S → EnvView → RNG → ℝ × Fish S)
    (f : Fish S) (env : EnvView) (rng : RNG)
    (hs : ((turnF f env rng).2).static = true) :
    ((Fish.move turnF f env rng).2.2).position = ((turnF f env rng).2).position := by
  unfold Fish.move
  dsimp only
  split
  · rw [if_neg (by simp [hs])]
  · rfl

theorem fish_move_position_reject (turnF : Fish S → EnvView → RNG → ℝ × Fish S)
    (f : Fish S) (env : EnvView) (rng : RNG)
    (h : ¬ inBoundsR env.shape (moveCandidate turnF f env rng)) :
    ((Fish.move turnF f env rng).2.2).position = ((turnF f env rng).2).position := by
  unfold Fish.move
  dsimp only
  split
  · rw [if_neg]
    intro hc
    exact h ⟨hc.2.1, hc.2.2.1, hc.2.2.2.1, hc.2.2.2.2⟩
  · rfl

theorem fish_move_position_bounds (turnF : Fish S → EnvView → RNG → ℝ × Fish S)
    (f : Fish S) (env : EnvView) (rng : RNG)
    (h : inBoundsR env.shape ((turnF f env rng).2).position) :
    inBoundsR env.shape ((Fish.move turnF f env rng).2.2).position := by
  unfold Fish.move
  dsimp only
  split
  · split <;> rename_i hc
    · exact ⟨hc.2.1, hc.2.2.1, hc.2.2.2.1, hc.2.2.2.2⟩
    · exact h
  · exact h

-- ## Theorems

theorem fmod_nonneg (x : ℝ) {y : ℝ} (hy : 0 < y) : 0 ≤ fmod x y := by
  have h1 : (⌊x / y⌋ : ℝ) ≤ x / y := Int.floor_le _
  have h2 : y * (⌊x / y⌋ : ℝ) ≤ y * (x / y) :=
    mul_le_mul_of_nonneg_left h1 hy.le
  have h3 : y * (x / y) = x := by field_simp
  unfold fmod
  linarith

theorem fmod_lt (x : ℝ) {y : ℝ} (hy : 0 < y) : fmod x y < y := by
  have h1 : x / y < (⌊x / y⌋ : ℝ) + 1 := Int.lt_floor_add_one _
  have h2 : y * (x / y) < y * ((⌊x / y⌋ : ℝ) + 1) :=
    mul_lt_mul_of_pos_left h1 hy
  have h3 : y * (x / y) = x := by field_simp
  unfold fmod
  nlinarith

@[simp] theorem fmod_zero_left (y : ℝ) : fmod 0 y = 0 := by
  simp [fmod]

/-- C1 (counterexample): the spec formula
`row = origin.row − rho·sin(phi)`, `col = origin.col + rho·cos(phi)` does not
hold for the code's `pol2cart`: at `rho = 1`, `phi = 0`, `origin = (0,0)` the
code returns `(1, 0)` while the spec formula yields `(0, 1)`. -/
theorem pol2cart_spec_formula_refuted :
    ¬ (pol2cart 1 0 ((0 : ℝ), (0 : ℝ)) =
        ((0 : ℝ) - 1 * Real.sin 0, (0 : ℝ) + 1 * Real.cos 0)) := by
  simp [pol2cart, Prod.ext_iff]

/-- C1 (amended): for every radius `rho`, angle `phi` and 2D origin,
`pol2cart(rho, phi, origin)` returns the cartesian coordinate `(row, col)` with
`row = origin.row + rho·cos(phi)` and `col = origin.col + rho·sin(phi)`:
the row axis carries the cosine and the column axis the sine, so increasing
`phi` rotates the point from the positive-row axis toward the
positive-column axis. -/
theorem pol2cart_characterization (rho phi : ℝ) (origin : ℝ × ℝ) :
    pol2cart rho phi origin =
      (origin.1 + rho * Real.cos phi, origin.2 + rho * Real.sin phi) := by
  simp [pol2cart, Prod.ext_iff]
  constructor <;> ring

/-- C2: `nonlinearity` is a pure total function on the reals: it equals
`clip(|x|^(1/3), 0, 1)`, which (since a cube root of an absolute value is
nonnegative) is the cube root of the absolute value capped at 1, and its
value always lies in `[0, 1]`. -/
theorem nonlinearity_spec (x : ℝ) :
    nonlinearity x = clip (|x| ^ ((1 : ℝ) / 3)) 0 1
    ∧ nonlinearity x = min (|x| ^ ((1 : ℝ) / 3)) 1
    ∧ 0 ≤ nonlinearity x ∧ nonlinearity x ≤ 1 := by
  have hpow : (0 : ℝ) ≤ |x| ^ ((1 : ℝ) / 3) :=
    Real.rpow_nonneg (abs_nonneg x) _
  refine ⟨rfl, ?_, ?_, ?_⟩
  · rw [nonlinearity, clip, max_eq_left hpow]
  · rw [nonlinearity, clip]
    exact le_min (le_max_of_le_left hpow) zero_le_one
  · rw [nonlinearity, clip]
    exact min_le_right _ _

theorem stageMean_const {v : ℝ} (stage : ℕ → ℕ → ℝ) (rr cc : List ℕ)
    (hst : ∀ r c, stage r c = v) (hrr : rr ≠ []) (hcc : cc ≠ []) :
    stageMean stage rr cc = v := by
  have hzip : rr.zip cc ≠ [] := by
    cases rr with
    | nil => exact absurd rfl hrr
    | cons a as =>
      cases cc with
      | nil => exact absurd rfl hcc
      | cons b bs => simp [List.zip]
  have hlen : ((rr.zip cc).length : ℝ) ≠ 0 := by
    exact_mod_cast List.length_pos.mpr hzip |>.ne'
  unfold stageMean
  have hmap : ((rr.zip cc).map fun p => stage p.1 p.2) =
      (rr.zip cc).map fun _ => v := by
    apply List.map_congr_left
    intro p _
    exact hst p.1 p.2
  rw [hmap, List.map_const', List.sum_replicate, nsmul_eq_mul]
  exact mul_div_cancel_left₀ v hlen

theorem brightness_left_const {S : Type} {v : ℝ} (P : Raster) (f : Fish S)
    (env : EnvView) (hst : ∀ r c, env.stage r c = v)
    (h1 : (f.left_eye P env.shape).1 ≠ []) (h2 : (f.left_eye P env.shape).2 ≠ []) :
    f.brightness_left P env = v := by
  unfold Fish.brightness_left
  dsimp only
  rw [if_pos ⟨h1, h2⟩]
  exact stageMean_const _ _ _ hst h1 h2

theorem brightness_right_const {S : Type} {v : ℝ} (P : Raster) (f : Fish S)
    (env : EnvView) (hst : ∀ r c, env.stage r c = v)
    (h1 : (f.right_eye P env.shape).1 ≠ []) (h2 : (f.right_eye P env.shape).2 ≠ []) :
    f.brightness_right P env = v := by
  unfold Fish.brightness_right
  dsimp only
  rw [if_pos ⟨h1, h2⟩]
  exact stageMean_const _ _ _ hst h1 h2

theorem binocular_step_fish (P : Raster) (f : Fish ℝ) (env : EnvView)
    (stepE : EnvView → EnvView) (rng : RNG) :
    (BinocularFish.step P f env stepE rng).1 =
      (Fish.move (BinocularFish.turn P)
        { f with set_point := f.set_point - f.learning_rate *
            (f.set_point - (f.brightness_left P env + f.brightness_right P env) / 2) }
        env rng).2.2 := rfl

theorem monocular_step_fish (P : Raster) (f : Fish (ℝ × ℝ)) (env : EnvView)
    (stepE : EnvView → EnvView) (rng : RNG) :
    (MonocularFish.step P f env stepE rng).1 =
      (Fish.move (MonocularFish.turn P)
        { f with set_point :=
            (f.set_point.1 - f.learning_rate * (f.set_point.1 - f.brightness_left P env),
             f.set_point.2 - f.learning_rate * (f.set_point.2 - f.brightness_right P env)) }
        env rng).2.2 := rfl

theorem binocular_step_set_point_eq (P : Raster) (f : Fish ℝ) (env : EnvView)
    (stepE : EnvView → EnvView) (rng : RNG) :
    ((BinocularFish.step P f env stepE rng).1).set_point =
      f.set_point - f.learning_rate *
        (f.set_point - (f.brightness_left P env + f.brightness_right P env) / 2) := by
  rw [binocular_step_fish, fish_move_set_point]
  rw [(binocular_turn_fields P _ env rng).2.2.2.2.1]

/-- C3: for every `BinocularFish`, environment and random draws,
`turn(environment)` computes `diff_diff = |brightness_left − set_point| −
|brightness_right − set_point|`, selects the right-turn distribution when
`diff_diff > 0` and the left-turn distribution otherwise, commits the
selected-distribution normal sample as `theta` when the Bernoulli draw with
success probability `max_diff · nonlinearity(diff_diff)` succeeds and the
no-turn normal sample otherwise, applies
`heading ← (heading + theta) mod 2π` exactly when `static` is not set, and
returns `theta` in all cases. -/
theorem binocular_turn_spec (P : Raster) (f : Fish ℝ) (env : EnvView) (rng : RNG) :
    BinocularFish.turn P f env rng =
      (let diff_diff := |f.brightness_left P env - f.set_point| -
         |f.brightness_right P env - f.set_point|
       let turn_dist := if 0 < diff_diff then f.right_turn_dist else f.left_turn_dist
       let theta := if rng.bernoulli (f.max_diff * nonlinearity diff_diff)
         then rng.normal turn_dist.mu turn_dist.sigma
         else rng.normal f.no_turn_dist.mu f.no_turn_dist.sigma
       (theta,
        if f.static then f
        else { f with heading := fmod (f.heading + theta) (2 * Real.pi) })) := by
  unfold BinocularFish.turn
  dsimp only
  cases hs : f.static <;> simp [hs]

/-- C4: every `BinocularFish.step` updates the set point by
`set_point ← set_point − learning_rate · (set_point − mean(brightness_left,
brightness_right))`; and in the concrete scenario — uniform 10×10 stage of
brightness 0.25, fish at `(5,5)` with heading 0, `set_point = 0.5`,
`static = True`, `p_move = 0`, with both eyes' rasterized fields of view
nonempty (as they are for the real rasterizer at this interior position) —
one `step()` leaves `heading = 0` and `position = (5,5)` and moves
`set_point` to exactly `0.5 − learning_rate · 0.25`. -/
theorem binocular_step_set_point_spec :
    (∀ (P : Raster) (f : Fish ℝ) (env : EnvView) (stepE : EnvView → EnvView) (rng : RNG),
      ((BinocularFish.step P f env stepE rng).1).set_point =
        f.set_point - f.learning_rate *
          (f.set_point - (f.brightness_left P env + f.brightness_right P env) / 2))
    ∧ (∀ (P : Raster) (f : Fish ℝ) (env : EnvView) (stepE : EnvView → EnvView) (rng : RNG),
      env.shape = (10, 10) → (∀ r c, env.stage r c = 0.25) →
      f.heading = 0 → f.position = (5, 5) → f.static = true →
      f.set_point = 0.5 → f.p_move = 0 →
      (f.left_eye P env.shape).1 ≠ [] → (f.left_eye P env.shape).2 ≠ [] →
      (f.right_eye P env.shape).1 ≠ [] → (f.right_eye P env.shape).2 ≠ [] →
      ((BinocularFish.step P f env stepE rng).1).heading = 0
      ∧ ((BinocularFish.step P f env stepE rng).1).position = (5, 5)
      ∧ ((BinocularFish.step P f env stepE rng).1).set_point =
          0.5 - f.learning_rate * 0.25) := by
  constructor
  · intro P f env stepE rng
    exact binocular_step_set_point_eq P f env stepE rng
  · intro P f env stepE rng hsh hst hh hp hs hsp hpm hl1 hl2 hr1 hr2
    have hbl : f.brightness_left P env = 0.25 := brightness_left_const P f env hst hl1 hl2
    have hbr : f.brightness_right P env = 0.25 := brightness_right_const P f env hst hr1 hr2
    have keyh : ∀ gf : Fish ℝ, gf.static = true → gf.heading = 0 →
        ((Fish.move (BinocularFish.turn P) gf env rng).2.2).heading = 0 := by
      intro gf hgs hgh
      rw [fish_move_heading, binocular_turn_heading_static P gf env rng hgs]
      exact hgh
    have keyp : ∀ gf : Fish ℝ, gf.static = true → gf.position = (5, 5) →
        ((Fish.move (BinocularFish.turn P) gf env rng).2.2).position = (5, 5) := by
      intro gf hgs hgp
      rw [fish_move_position_static (BinocularFish.turn P) gf env rng
          (by rw [(binocular_turn_fields P gf env rng).2.1]; exact hgs),
        (binocular_turn_fields P gf env rng).1]
      exact hgp
    refine ⟨?_, ?_, ?_⟩
    · rw [binocular_step_fish]
      apply keyh
      · exact hs
      · exact hh
    · rw [binocular_step_fish]
      apply keyp
      · exact hs
      · exact hp
    · rw [binocular_step_set_point_eq, hbl, hbr, hsp]
      norm_num

/-- C4 witness: the concrete scenario evaluated with a rasterizer returning
the cell `(0,0)`, default hyperparameters and `learning_rate = 0.05`:
the set point moves to `0.5 − 0.05 · 0.25 = 0.4875`. -/
theorem binocular_step_set_point_spec_witness :
    ((BinocularFish.step P1 fish4 env10 id rngMeans).1).heading = 0
    ∧ ((BinocularFish.step P1 fish4 env10 id rngMeans).1).position = (5, 5)
    ∧ ((BinocularFish.step P1 fish4 env10 id rngMeans).1).set_point = 0.4875 := by
  have h := binocular_step_set_point_spec.2 P1 fish4 env10 id rngMeans rfl
    (fun _ _ => rfl) rfl rfl rfl rfl rfl
    (by simp [Fish.left_eye, P1]) (by simp [Fish.left_eye, P1])
    (by simp [Fish.right_eye, P1]) (by simp [Fish.right_eye, P1])
  refine ⟨h.1, h.2.1, ?_⟩
  rw [h.2.2]
  norm_num [fish4]

/-- C5: for every fish (any set-point type) and environment, whenever an
eye's rasterized visible coordinate set is empty, `brightness_left` /
`brightness_right` returns exactly 0.0 (the functions are total: no error
path exists). -/
theorem brightness_empty_fov_zero {S : Type} (P : Raster) (f : Fish S) (env : EnvView) :
    ((f.left_eye P env.shape).1 = [] ∨ (f.left_eye P env.shape).2 = [] →
      f.brightness_left P env = 0)
    ∧ ((f.right_eye P env.shape).1 = [] ∨ (f.right_eye P env.shape).2 = [] →
      f.brightness_right P env = 0) := by
  constructor
  · intro h
    unfold Fish.brightness_left
    dsimp only
    rcases h with h | h
    · rw [if_neg]
      intro hc
      exact hc.1 h
    · rw [if_neg]
      intro hc
      exact hc.2 h
  · intro h
    unfold Fish.brightness_right
    dsimp only
    rcases h with h | h
    · rw [if_neg]
      intro hc
      exact hc.1 h
    · rw [if_neg]
      intro hc
      exact hc.2 h

/-- C5 witness: a fish at the corner `(0,0)` with a rasterizer producing an
empty field of view senses brightness 0.0 from both eyes. -/
theorem brightness_empty_fov_zero_witness :
    Fish.brightness_left P0 fishC5 env10 = 0
    ∧ Fish.brightness_right P0 fishC5 env10 = 0 :=
  ⟨(brightness_empty_fov_zero P0 fishC5 env10).1 (Or.inl rfl),
   (brightness_empty_fov_zero P0 fishC5 env10).2 (Or.inl rfl)⟩

/-- C6: for every fish (binocular or monocular) and environment, if the
candidate position computed via `pol2cart(move_distance, heading,
origin=position)` inside `move(environment)` has its row outside
`[0, shape[0])` or its column outside `[0, shape[1])`, then `position` is
left unchanged for that step (and the function is total: silent
rejection, no error). -/
theorem move_out_of_bounds_rejected :
    (∀ (P : Raster) (f : Fish ℝ) (env : EnvView) (rng : RNG),
      ¬ inBoundsR env.shape (moveCandidate (BinocularFish.turn P) f env rng) →
      ((BinocularFish.move P f env rng).2.2).position = f.position)
    ∧ (∀ (P : Raster) (f : Fish (ℝ × ℝ)) (env : EnvView) (rng : RNG),
      ¬ inBoundsR env.shape (moveCandidate (MonocularFish.turn P) f env rng) →
      ((MonocularFish.move P f env rng).2.2).position = f.position) := by
  constructor
  · intro P f env rng h
    unfold BinocularFish.move
    rw [fish_move_position_reject _ _ _ _ h]
    exact (binocular_turn_fields P f env rng).1
  · intro P f env rng h
    unfold MonocularFish.move
    rw [fish_move_position_reject _ _ _ _ h]
    exact (monocular_turn_fields P f env rng).1

/-- C6 witness: a non-static fish at `(5,5)` in a 10×10 arena whose heading
stays 0 and whose move-distance draw is 100 produces the out-of-bounds
candidate `(105, 5)`, and its position is unchanged. -/
theorem move_out_of_bounds_rejected_witness :
    ((BinocularFish.move P0 fishC6 env10 rngMeans).2.2).position = ((5 : ℝ), (5 : ℝ)) := by
  apply move_out_of_bounds_rejected.1 P0 fishC6 env10 rngMeans
  norm_num [moveCandidate, BinocularFish.turn, Fish.brightness_left,
    Fish.brightness_right, Fish.left_eye, Fish.right_eye, P0, fishC6, mkFish,
    env10, rngMeans, pol2cart, inBoundsR, fmod]

/-- C7 (counterexample): a static `BinocularFish` constructed with heading 7
(which is outside `[0, 2π)`, since `2π < 6.3`) still has heading 7 after a
`step()` — heading is only canonicalized when `static` is not set. -/
theorem heading_not_canonical_when_static :
    ((BinocularFish.step P0 fish7 env10 id rngMeans).1).heading = 7
    ∧ ¬ (((BinocularFish.step P0 fish7 env10 id rngMeans).1).heading < 2 * Real.pi) := by
  have h1 : ((BinocularFish.step P0 fish7 env10 id rngMeans).1).heading = 7 := by
    rw [binocular_step_fish]
    have key : ∀ gf : Fish ℝ, gf.static = true → gf.heading = 7 →
        ((Fish.move (BinocularFish.turn P0) gf env10 rngMeans).2.2).heading = 7 := by
      intro gf hgs hgh
      rw [fish_move_heading, binocular_turn_heading_static P0 gf env10 rngMeans hgs]
      exact hgh
    apply key
    · rfl
    · rfl
  refine ⟨h1, ?_⟩
  rw [h1]
  have hpi := Real.pi_lt_d2
  intro hlt
  linarith

/-- C7 (amended): for every non-static fish (binocular or monocular), every
initial heading and every step, the heading lies in `[0, 2π)` after
`step()`; a static fish's heading is never modified (see the
counterexample). -/
theorem heading_canonical_nonstatic :
    (∀ (P : Raster) (f : Fish ℝ) (env : EnvView) (stepE : EnvView → EnvView) (rng : RNG),
      f.static = false →
      0 ≤ ((BinocularFish.step P f env stepE rng).1).heading
      ∧ ((BinocularFish.step P f env stepE rng).1).heading < 2 * Real.pi)
    ∧ (∀ (P : Raster) (f : Fish (ℝ × ℝ)) (env : EnvView) (stepE : EnvView → EnvView) (rng : RNG),
      f.static = false →
      0 ≤ ((MonocularFish.step P f env stepE rng).1).heading
      ∧ ((MonocularFish.step P f env stepE rng).1).heading < 2 * Real.pi) := by
  constructor
  · intro P f env stepE rng hs
    rw [binocular_step_fish]
    have key : ∀ gf : Fish ℝ, gf.static = false →
        0 ≤ ((Fish.move (BinocularFish.turn P) gf env rng).2.2).heading
        ∧ ((Fish.move (BinocularFish.turn P) gf env rng).2.2).heading < 2 * Real.pi := by
      intro gf hgs
      rw [fish_move_heading, binocular_turn_heading_nonstatic P gf env rng hgs]
      exact ⟨fmod_nonneg _ Real.two_pi_pos, fmod_lt _ Real.two_pi_pos⟩
    apply key
    exact hs
  · intro P f env stepE rng hs
    rw [monocular_step_fish]
    have key : ∀ gf : Fish (ℝ × ℝ), gf.static = false →
        0 ≤ ((Fish.move (MonocularFish.turn P) gf env rng).2.2).heading
        ∧ ((Fish.move (MonocularFish.turn P) gf env rng).2.2).heading < 2 * Real.pi := by
      intro gf hgs
      rw [fish_move_heading, monocular_turn_heading_nonstatic P gf env rng hgs]
      exact ⟨fmod_nonneg _ Real.two_pi_pos, fmod_lt _ Real.two_pi_pos⟩
    apply key
    exact hs

/-- C7 witness: concrete non-static binocular and monocular fish have
heading in `[0, 2π)` after one step. -/
theorem heading_canonical_nonstatic_witness :
    (0 ≤ ((BinocularFish.step P0 fishC6 env10 id rngMeans).1).heading
      ∧ ((BinocularFish.step P0 fishC6 env10 id rngMeans).1).heading < 2 * Real.pi)
    ∧ (0 ≤ ((MonocularFish.step P0 fishM env10 id rngMeans).1).heading
      ∧ ((MonocularFish.step P0 fishM env10 id rngMeans).1).heading < 2 * Real.pi) :=
  ⟨heading_canonical_nonstatic.1 P0 fishC6 env10 id rngMeans rfl,
   heading_canonical_nonstatic.2 P0 fishM env10 id rngMeans rfl⟩

/-- C8 (counterexample): a static `SinusoidalGradient`'s `step()` leaves the
whole environment state unchanged — in particular no time counter is
advanced; the class maintains no `time_step` at all (neither its
constructor nor the base `Environment` constructor defines one). -/
theorem sinusoidal_step_no_counter : SinusoidalGradient.step sg0 = sg0 := rfl

/-- C8 (amended): `Spotlight.step()` and `PartitionedHalves.step()` each
increase `time_step` by exactly 1 per call; `SinusoidalGradient` maintains
no `time_step` counter, and its `step()` leaves its state entirely
unchanged when `static` is set (and only updates `phase` and `stage`
otherwise). -/
theorem env_time_step_spec :
    (∀ e : Spotlight, (Spotlight.step e).time_step = e.time_step + 1)
    ∧ (∀ e : PartitionedHalves, (PartitionedHalves.step e).time_step = e.time_step + 1)
    ∧ (∀ e : SinusoidalGradient, e.static = true → SinusoidalGradient.step e = e)
    ∧ (∀ e : SinusoidalGradient, e.static = false →
        (SinusoidalGradient.step e).phase = fmod (e.phase + e.dt) (2 * Real.pi)) := by
  refine ⟨fun e => rfl, fun e => ?_, fun e hs => ?_, fun e hs => ?_⟩
  · unfold PartitionedHalves.step
    dsimp only
    split <;> split <;> rfl
  · unfold SinusoidalGradient.step
    rw [if_pos hs]
  · unfold SinusoidalGradient.step
    rw [if_neg (by simp [hs])]

/-- C8 witness: the concrete environments: `Spotlight` and
`PartitionedHalves` advance `time_step` by one, the static
`SinusoidalGradient` is unchanged, and a de-staticized copy advances its
phase. -/
theorem env_time_step_spec_witness :
    (Spotlight.step sp0).time_step = sp0.time_step + 1
    ∧ (PartitionedHalves.step ph0).time_step = ph0.time_step + 1
    ∧ SinusoidalGradient.step sg0 = sg0
    ∧ (SinusoidalGradient.step { sg0 with static := false }).phase =
        fmod (sg0.phase + sg0.dt) (2 * Real.pi) :=
  ⟨env_time_step_spec.1 sp0, env_time_step_spec.2.1 ph0,
   env_time_step_spec.2.2.1 sg0 rfl,
   env_time_step_spec.2.2.2 { sg0 with static := false } rfl⟩

/-- C9 (counterexample): a committed `move()` stores the raw real-valued
`pol2cart` output: a non-static fish at `(5,5)` with heading 0 and
move-distance draw 0.5 ends at position `(5.5, 5)`, whose row coordinate is
not an integer — `position` does not remain an integer coordinate. -/
theorem move_commits_noninteger_position :
    ((BinocularFish.move P0 fishC9 env10 rngMeans).2.2).position = ((5.5 : ℝ), (5 : ℝ))
    ∧ ¬ ∃ n : ℤ, ((n : ℝ) =
        ((BinocularFish.move P0 fishC9 env10 rngMeans).2.2).position.1) := by
  have hturn : (BinocularFish.turn P0 fishC9 env10 rngMeans).2 = fishC9 := by
    norm_num [BinocularFish.turn, Fish.brightness_left, Fish.brightness_right,
      Fish.left_eye, Fish.right_eye, P0, fishC9, mkFish, env10, rngMeans, fmod]
  have hpos : ((BinocularFish.move P0 fishC9 env10 rngMeans).2.2).position
      = ((5.5 : ℝ), (5 : ℝ)) := by
    unfold BinocularFish.move Fish.move
    dsimp only
    rw [hturn]
    norm_num [fishC9, mkFish, env10, rngMeans, pol2cart, Prod.ext_iff]
  refine ⟨hpos, ?_⟩
  rintro ⟨n, hn⟩
  rw [hpos] at hn
  have h2 : ((2 * n : ℤ) : ℝ) = ((11 : ℤ) : ℝ) := by
    push_cast
    linarith
  have h3 : (2 * n : ℤ) = 11 := Int.cast_injective h2
  omega

/-- C9 (amended): for every fish (binocular or monocular), `position` is and
remains a 2-element real coordinate; whenever it lies in
`[0, shape[0]) × [0, shape[1])` it still does after `move()` (a committed
move stores the in-bounds real-valued candidate, an uncommitted one leaves
`position` untouched) — but the coordinates are in general not integers
after a committed move (see the counterexample). -/
theorem move_position_in_bounds :
    (∀ (P : Raster) (f : Fish ℝ) (env : EnvView) (rng : RNG),
      inBoundsR env.shape f.position →
      inBoundsR env.shape ((BinocularFish.move P f env rng).2.2).position)
    ∧ (∀ (P : Raster) (f : Fish (ℝ × ℝ)) (env : EnvView) (rng : RNG),
      inBoundsR env.shape f.position →
      inBoundsR env.shape ((MonocularFish.move P f env rng).2.2).position) := by
  constructor
  · intro P f env rng h
    unfold BinocularFish.move
    exact fish_move_position_bounds _ _ _ _
      (by rw [(binocular_turn_fields P f env rng).1]; exact h)
  · intro P f env rng h
    unfold MonocularFish.move
    exact fish_move_position_bounds _ _ _ _
      (by rw [(monocular_turn_fields P f env rng).1]; exact h)

/-- C9 witness: the fish of the counterexample starts in bounds and is still
in bounds after its committed move. -/
theorem move_position_in_bounds_witness :
    inBoundsR env10.shape ((BinocularFish.move P0 fishC9 env10 rngMeans).2.2).position :=
  move_position_in_bounds.1 P0 fishC9 env10 rngMeans
    (by norm_num [inBoundsR, fishC9, mkFish, env10])

/-- C10 (counterexample): the returned `move_distance` is not zero *exactly*
when the Bernoulli draw fails: with an oracle whose Bernoulli draw succeeds
but whose normal sample is 0, `move()` returns `move_distance = 0.0` even
though the draw succeeded. -/
theorem move_distance_zero_with_success :
    rngZero.bernoulli fishC6.p_move = true
    ∧ (BinocularFish.move P0 fishC6 env10 rngZero).1 = 0 := by
  refine ⟨rfl, ?_⟩
  unfold BinocularFish.move
  rw [fish_move_fst]
  rfl

/-- C10 (amended): for every fish (binocular or monocular), environment and
draws: when the `Bernoulli(p_move)` draw succeeds the returned
`move_distance` is the sampled `Normal(move_dist)` value even when the
position update is not committed (in particular a static fish's position
never changes, so a nonzero `move_distance` does not imply the position
changed); when the draw fails `move_distance` is 0.0 (the sampled value
itself may also be 0.0, see the counterexample). -/
theorem move_distance_spec :
    (∀ (P : Raster) (f : Fish ℝ) (env : EnvView) (rng : RNG),
      (rng.bernoulli f.p_move = true →
        (BinocularFish.move P f env rng).1 =
          rng.normal f.move_dist.mu f.move_dist.sigma)
      ∧ (rng.bernoulli f.p_move = false → (BinocularFish.move P f env rng).1 = 0)
      ∧ (f.static = true →
        ((BinocularFish.move P f env rng).2.2).position = f.position))
    ∧ (∀ (P : Raster) (f : Fish (ℝ × ℝ)) (env : EnvView) (rng : RNG),
      (rng.bernoulli f.p_move = true →
        (MonocularFish.move P f env rng).1 =
          rng.normal f.move_dist.mu f.move_dist.sigma)
      ∧ (rng.bernoulli f.p_move = false → (MonocularFish.move P f env rng).1 = 0)
      ∧ (f.static = true →
        ((MonocularFish.move P f env rng).2.2).position = f.position)) := by
  constructor
  · intro P f env rng
    have hfield := binocular_turn_fields P f env rng
    refine ⟨?_, ?_, ?_⟩
    · intro h
      unfold BinocularFish.move
      rw [fish_move_fst, hfield.2.2.1, hfield.2.2.2.1, if_pos h]
    · intro h
      unfold BinocularFish.move
      rw [fish_move_fst, hfield.2.2.1, h]
      simp
    · intro h
      unfold BinocularFish.move
      rw [fish_move_position_static _ _ _ _ (by rw [hfield.2.1]; exact h)]
      exact hfield.1
  · intro P f env rng
    have hfield := monocular_turn_fields P f env rng
    refine ⟨?_, ?_, ?_⟩
    · intro h
      unfold MonocularFish.move
      rw [fish_move_fst, hfield.2.2.1, hfield.2.2.2.1, if_pos h]
    · intro h
      unfold MonocularFish.move
      rw [fish_move_fst, hfield.2.2.1, h]
      simp
    · intro h
      unfold MonocularFish.move
      rw [fish_move_position_static _ _ _ _ (by rw [hfield.2.1]; exact h)]
      exact hfield.1

/-- C10 witness: with mean-valued draws, a fish whose candidate is rejected
still returns the sampled distance 100; with failing Bernoulli draws the
returned distance is 0; a static fish's position is unchanged although the
returned distance is nonzero. -/
theorem move_distance_spec_witness :
    (BinocularFish.move P0 fishC6 env10 rngMeans).1 = 100
    ∧ (BinocularFish.move P0 fishC6 env10 rngNoMove).1 = 0
    ∧ ((BinocularFish.move P0 fish7 env10 rngMeans).2.2).position = (5, 5)
    ∧ (BinocularFish.move P0 fish7 env10 rngMeans).1 = 1 :=
  ⟨(move_distance_spec.1 P0 fishC6 env10 rngMeans).1 rfl,
   (move_distance_spec.1 P0 fishC6 env10 rngNoMove).2.1 rfl,
   (move_distance_spec.1 P0 fish7 env10 rngMeans).2.2 rfl,
   (move_distance_spec.1 P0 fish7 env10 rngMeans).1 rfl⟩

end Brightfish
